import Mathlib

/-!
# Verification of the lidtest session-and-protocol engine

Shallow embedding of:
* the server-side WebSocket `onMessage` handler (`src/cli.ts`, lines 43-106),
  together with the lazy browser/page session state it mutates;
* the client-side run/registration logic (`src/unnamed/part_000`):
  the one-shot `handleMessage` result listener of `runTest` (lines 681-703),
  the sequential `runAll` loop (lines 503-516) and
  `scheduleReconnect` (lines 480-487).

External, asynchronous or library behaviour (JSON.parse, chromium.launch,
dynamic `import`, the submitted test body) is represented by explicit
oracle values: each oracle records whether the corresponding call succeeds
and with which result, so every control path of the source is a concrete
branch of the Lean definition.
-/

/-- Modelled from the spec: the `TestStatus` enum imported from
`src/constants`, a file absent from the sources.  Section 6 of the spec
fixes the wire values: `"passed" | "failed" | "error" | "running" |
"not_started"`. -/
inductive TestStatus
  | notStarted
  | running
  | passed
  | failed
  | error
  deriving DecidableEq, Repr

/-- Modelled from the spec: the wire string of each `TestStatus` value
(spec section 6). -/
def TestStatus.wire : TestStatus → String
  | .notStarted => "not_started"
  | .running => "running"
  | .passed => "passed"
  | .failed => "failed"
  | .error => "error"

/-- A parsed client-to-server message (`interface Test` client-side,
`data` server-side): `{id, title, code, func?}`. -/
structure TestRequest where
  id : String
  title : String
  code : String
  func : Option String
  deriving DecidableEq, Repr

/-- Messages the server sends over the socket: the greeting from `onOpen`
and the `test_result` objects from `onMessage` (`src/cli.ts` 36, 83-89,
95-102).  A passed result carries no `error` field. -/
inductive ServerMsg
  | greeting (message : String)
  | testResult (status : TestStatus) (testId : String) (error : Option String)
  deriving DecidableEq, Repr

/-- The dynamic type of `event.data` as discriminated by `onMessage`
(`src/cli.ts` 45-52): a string, an `ArrayBuffer`, a `Blob` (each carrying
payload text), or anything else. -/
inductive RawData
  | str (s : String)
  | arrayBuffer (s : String)
  | blob (s : String)
  | other
  deriving DecidableEq, Repr

/-- The value bound to `data` after the dispatch on `event.data`
(`src/cli.ts` 44-53).  The string and ArrayBuffer branches run
`JSON.parse`, producing an object; the Blob branch only runs
`await event.data.text()`, so `data` stays a plain string there. -/
inductive JSValue
  | obj (req : TestRequest)
  | jsStr (s : String)
  deriving DecidableEq, Repr

/-- The per-connection session record stored in the `WeakMap`
(`src/cli.ts` 23-32, 37-41): lazily created browser handle, lazily
created default page, and the named-page table.  Handles are opaque
numeric identifiers. -/
structure Session where
  browser : Option Nat
  page : Option Nat
  pages : List (String × Nat)
  deriving DecidableEq, Repr

/-- The record `onOpen` installs for a fresh connection
(`src/cli.ts` 37-41). -/
def Session.init : Session := { browser := none, page := none, pages := [] }

/-- Result of `m[data.func || "default"]` once the dynamic import has
succeeded: the resolved export may be a callable whose invocation either
returns normally or throws with a message, or a non-callable value
(calling it throws a `TypeError`). -/
inductive ExportVal
  | callable (result : Except String Unit)
  | nonCallable
  deriving Repr

/-- Result of `await import(tempFilePath)` (`src/cli.ts` 77-79): the
very import may throw (e.g. the submitted code fails to compile), or it
loads a module in which the requested export is present (`some`) or
absent (`none`, i.e. `undefined`). -/
inductive ImportResult
  | throws (msg : String)
  | loaded (exportVal : Option ExportVal)
  deriving Repr

/-- Oracle for the external calls one `onMessage` invocation performs:
`JSON.parse` (as a partial function from payload text to a request
object), `chromium.launch`, `browser.newPage`, the `nanoid()` scratch
file name, and the dynamic import of the scratch file. -/
structure ExecEnv where
  parse : String → Option TestRequest
  launchResult : Option Nat
  newPageResult : Option Nat
  fileName : String
  importResult : ImportResult

/-- Everything observable about one `onMessage` invocation: `threw` is
`some e` when an exception escaped the handler uncaught, `session` is the
mutated per-connection record, `files` the scratch files existing
afterwards, `sent` the messages written to the socket, and
`launchedNew` / `createdPage` record whether this invocation assigned
`context.browser` / `context.page`. -/
structure MsgOutcome where
  threw : Option String
  session : Session
  files : List String
  sent : List ServerMsg
  launchedNew : Bool
  createdPage : Bool
  deriving Repr

/-- Lines 44-53 of `src/cli.ts`: turn `event.data` into `data`, or throw.  A
string or `ArrayBuffer` payload goes through `JSON.parse` (which throws
on malformed JSON); a `Blob` payload is only read as text; any other
type throws `"Invalid event data"`. -/
def parseEventData (parse : String → Option TestRequest) :
    RawData → Except String JSValue
  | .str s =>
    match parse s with
    | some req => .ok (.obj req)
    | none => .error "SyntaxError: JSON.parse failed"
  | .arrayBuffer s =>
    match parse s with
    | some req => .ok (.obj req)
    | none => .error "SyntaxError: JSON.parse failed"
  | .blob s => .ok (.jsStr s)
  | .other => .error "Invalid event data"

/-- The `data.code` property access used at `src/cli.ts` 76: on the
parsed object it is the submitted source text; on a plain string (the
Blob branch) it is `undefined` (`none`). -/
def JSValue.codeField : JSValue → Option String
  | .obj req => some req.code
  | .jsStr _ => none

/-- The `data.func || "default"` expression (`src/cli.ts` 78); on a
plain string `data.func` is `undefined` so the default is used. -/
def JSValue.funcField : JSValue → String
  | .obj req => (req.func.getD "default")
  | .jsStr _ => "default"

/-- The `data.id` property access (`src/cli.ts` 82-99); `undefined` on
the Blob branch, modelled as the empty string on the wire. -/
def JSValue.idField : JSValue → String
  | .obj req => req.id
  | .jsStr _ => "undefined"

/-- Lines 80-105 of `src/cli.ts`: the `try { await runTest(...) } catch { ... }`
block, given the resolved export.  Calling an absent (`undefined`) or
non-callable export throws a `TypeError`, which the `catch` turns into a
failed result exactly like an error thrown by the test body itself. -/
def runPhase (exportVal : Option ExportVal) (testId : String) :
    List ServerMsg :=
  match exportVal with
  | none => [.testResult .failed testId (some "runTest is not a function")]
  | some .nonCallable => [.testResult .failed testId (some "runTest is not a function")]
  | some (.callable (.error msg)) => [.testResult .failed testId (some msg)]
  | some (.callable (.ok _)) => [.testResult .passed testId none]

/-- Lines 72-105 of `src/cli.ts`, reached once `context.browser` and
`context.page` are both set: write the scratch file, import it, and run
the resolved export under `try`/`catch`/`finally`.  The write throws a
`TypeError` when `data.code` is `undefined` (the Blob branch), and the
`await import(...)` at line 77 stands OUTSIDE the `try` block, so a
load failure escapes before the `finally` unlink can run. -/
def onMessageWithPage (env : ExecEnv) (s : Session) (fs : List String)
    (data : JSValue) (launched created : Bool) : MsgOutcome :=
  match data.codeField with
  | none =>
    -- fs.writeFileSync(path, undefined) throws a TypeError
    { threw := some "TypeError: data argument must be a string",
      session := s, files := fs, sent := [],
      launchedNew := launched, createdPage := created }
  | some _ =>
    let fs1 := if env.fileName ∈ fs then fs else fs ++ [env.fileName]
    match env.importResult with
    | .throws msg =>
      -- the scratch file is NOT deleted: the finally block is never entered
      { threw := some msg, session := s, files := fs1, sent := [],
        launchedNew := launched, createdPage := created }
    | .loaded exportVal =>
      -- lines 80-105: try/catch around the invocation, finally unlinks
      { threw := none, session := s, files := fs1.erase env.fileName,
        sent := runPhase exportVal data.idField,
        launchedNew := launched, createdPage := created }

/-- Lines 67-70 of `src/cli.ts`, reached once `context.browser` is set:
`if (!context.page) { context.page = await context.browser.newPage();
context.pages.default = context.page; }`. -/
def onMessageWithBrowser (env : ExecEnv) (s : Session) (fs : List String)
    (data : JSValue) (launched : Bool) : MsgOutcome :=
  match s.page with
  | none =>
    match env.newPageResult with
    | none =>
      -- newPage threw: the browser assignment persists, the exception escapes
      { threw := some "newPage failed", session := s, files := fs,
        sent := [], launchedNew := launched, createdPage := false }
    | some p =>
      onMessageWithPage env
        { s with page := some p, pages := s.pages ++ [("default", p)] }
        fs data launched true
  | some _ => onMessageWithPage env s fs data launched false

/-- The full `onMessage` handler (`src/cli.ts` 43-106) on one inbound
frame, threading the session record and the scratch-file directory.
Every `threw := some _` outcome is an exception propagating out of the
handler: the source has no try/catch around parsing, browser start, page
creation, the scratch-file write or the dynamic import; only the
invocation of the resolved export sits inside `try`/`catch`/`finally`. -/
def onMessage (env : ExecEnv) (s : Session) (fs : List String)
    (raw : RawData) : MsgOutcome :=
  match parseEventData env.parse raw with
  | .error e =>
    { threw := some e, session := s, files := fs, sent := [],
      launchedNew := false, createdPage := false }
  | .ok data =>
    -- lines 61-65: if (!context.browser) context.browser = await chromium.launch(...)
    match s.browser with
    | none =>
      match env.launchResult with
      | none =>
        -- launch threw: the assignment never ran, the exception escapes
        { threw := some "browser launch failed", session := s, files := fs,
          sent := [], launchedNew := false, createdPage := false }
      | some b =>
        onMessageWithBrowser env { s with browser := some b } fs data true
    | some _ => onMessageWithBrowser env s fs data false

/-!
## Client side: the one-shot result listener of `runTest`

`src/unnamed/part_000`, lines 667-711 (the promise-returning `runTest`
of `useTest`): after sending the request it installs `handleMessage`,
which on each inbound socket message parses the payload, checks for
`{type: "test_result", testId == test.id}`, and on a match updates the
status, rejects the deferred outcome when the status is
`TestStatus.Failed` and resolves it otherwise, finally removing itself.
A parse failure also rejects, marks the test failed, and removes the
listener.  A non-matching message leaves everything untouched.
-/

/-- An inbound socket message as seen by the client listener: either the
payload fails `JSON.parse`, or it parses to an object with `type`,
`testId`, `status` and optional `error` fields. -/
inductive Inbound
  | unparseable (errText : String)
  | parsed (type_ : String) (testId : String) (status : TestStatus)
      (error : Option String)
  deriving DecidableEq, Repr

/-- How the deferred outcome of `runTest` is settled by one listener
invocation. -/
inductive Outcome
  | resolved
  | rejected (msg : String)
  | pending
  deriving DecidableEq, Repr

/-- Observable effects of one `handleMessage` invocation: how the
promise is settled, the `setStatus` / `setError` calls made, and whether
the listener removed itself. -/
structure HandleResult where
  outcome : Outcome
  statusSet : Option TestStatus
  errorSet : Option String
  removed : Bool
  deriving DecidableEq, Repr

/-- The listener body (`src/unnamed/part_000` 681-701).  Note the match
branch rejects only when `data.status === TestStatus.Failed`; every
other status — including `TestStatus.Error` — takes the `else` branch
and resolves the promise. -/
def handleMessage (testId : String) (msg : Inbound) : HandleResult :=
  match msg with
  | .unparseable e =>
    let err := "Failed to parse server response: " ++ e
    { outcome := .rejected err, statusSet := some .failed,
      errorSet := some err, removed := true }
  | .parsed type_ tid status error =>
    if type_ = "test_result" ∧ tid = testId then
      if status = .failed then
        { outcome := .rejected (error.getD ""), statusSet := some status,
          errorSet := some (error.getD ""), removed := true }
      else
        { outcome := .resolved, statusSet := some status,
          errorSet := none, removed := true }
    else
      { outcome := .pending, statusSet := none, errorSet := none,
        removed := false }

/-!
## Client side: the sequential `runAll` loop

`src/unnamed/part_000`, lines 503-516: `runAll` sets the running flag,
reads the registered tests from the store, and inside one
`try`/`catch`/`finally` awaits `test.run(ws)` for each registration in
order; a rejection aborts the loop into the `catch` (which only logs),
and the `finally` clears the running flag.  Each `test.run` is `runTest`
above: it sends the serialized request and its promise settles when the
matching `test_result` arrives (or parsing fails).
-/

/-- A registration as stored in `state.tests`: the id plus the eventual
settlement of its `run` promise (`.ok` when resolved, `.error` when
rejected). -/
structure TestEntry where
  id : String
  result : Except String Unit
  deriving Repr

/-- Observable events of one `runAll` call, in order: running-flag
updates, the send of a request, and the settlement of its awaited
result. -/
inductive RAEvent
  | setRunning (b : Bool)
  | sendReq (id : String)
  | recvResult (id : String)
  deriving DecidableEq, Repr

/-- The `for (const test of tests) await test.run(ws.current!)` loop
body: each iteration sends the request and awaits the settlement; a
rejection jumps out of the loop (into the `catch`, which only logs). -/
def runSeq : List TestEntry → List RAEvent
  | [] => []
  | t :: ts =>
    .sendReq t.id :: .recvResult t.id ::
      (match t.result with
        | .ok _ => runSeq ts
        | .error _ => [])

/-- The whole of `runAll` (`src/unnamed/part_000` 503-516):
`setIsRunning(true)`, the awaited loop, and the `finally`
`setIsRunning(false)` — the latter runs on both the normal and the
caught-rejection exit. -/
def runAll (tests : List TestEntry) : List RAEvent :=
  .setRunning true :: (runSeq tests ++ [.setRunning false])

/-!
## Client side: `scheduleReconnect`

`src/unnamed/part_000`, lines 480-487: if `reconnectTimeout.current` is
set, `clearTimeout` it; then `window.setTimeout(() => connect(), 2000)`
and store the new timer id.  The timer world models the browser's timer
table: armed one-shot timers with id, delay and action; `setTimeout`
allocates a fresh id from a counter.
-/

/-- What an armed timer will do when it fires.  The only callback the
component ever arms is `() => connect()`. -/
inductive TimerAction
  | connectAction
  deriving DecidableEq, Repr

/-- The environment's pending one-shot timers: `armed` lists
(id, delay in ms, action) of timers set and neither fired nor cleared;
`nextId` feeds `setTimeout`'s fresh ids. -/
structure TimerWorld where
  armed : List (Nat × Nat × TimerAction)
  nextId : Nat
  deriving DecidableEq, Repr

/-- The `clearTimeout(id)` call: drop the timer with that id, if armed. -/
def clearTimeout (w : TimerWorld) (id : Nat) : TimerWorld :=
  { w with armed := w.armed.filter (fun t => t.1 ≠ id) }

/-- The `window.setTimeout(action, delay)` call: arm a fresh one-shot timer and
return its id. -/
def setTimeout (w : TimerWorld) (delay : Nat) (a : TimerAction) :
    TimerWorld × Nat :=
  ({ armed := w.armed ++ [(w.nextId, delay, a)], nextId := w.nextId + 1 },
    w.nextId)

/-- The client's connection record, restricted to the reconnect-timer
ref (`reconnectTimeout.current`). -/
structure ClientConn where
  reconnectTimeout : Option Nat
  deriving DecidableEq, Repr

/-- The `scheduleReconnect` callback (`src/unnamed/part_000` 480-487): clear the
pending timer if any, then arm a new 2000 ms one-shot calling
`connect`, storing its id in the ref. -/
def scheduleReconnect (c : ClientConn) (w : TimerWorld) :
    ClientConn × TimerWorld :=
  let w1 := match c.reconnectTimeout with
    | some t => clearTimeout w t
    | none => w
  let (w2, id) := setTimeout w1 2000 .connectAction
  ({ reconnectTimeout := some id }, w2)

/-- The empty reconnect ref of a freshly mounted component
(`useRef<number>()`). -/
def clientInit : ClientConn := { reconnectTimeout := none }

/-- A timer world with nothing armed. -/
def timerInit : TimerWorld := { armed := [], nextId := 0 }

/-- Iterates `n` successive calls of `scheduleReconnect` starting from the fresh
component and an empty timer world — the worst case of repeated
close/error events before any timer fires. -/
def iterateSchedule : Nat → ClientConn × TimerWorld
  | 0 => (clientInit, timerInit)
  | n + 1 =>
    let r := iterateSchedule n
    scheduleReconnect r.1 r.2

/-- Correspondence between the component's `reconnectTimeout` ref and
the environment's armed timers: the armed timers are exactly the one
the ref records, and every armed id was allocated before `nextId`. -/
def TimerInv (c : ClientConn) (w : TimerWorld) : Prop :=
  w.armed.map Prod.fst = c.reconnectTimeout.toList ∧
    ∀ i ∈ w.armed.map Prod.fst, i < w.nextId

/-!
## Interleaving of two `onMessage` executions on one connection

The server registers `onMessage` as an `async` handler and never awaits
its returned promise, takes no lock and keeps no queue: when a second
frame arrives on the same connection while the first handler is
suspended at one of its `await`s (`chromium.launch`, `newPage`,
`import(...)`, `runTest(...)` — `src/cli.ts` 62, 68, 77, 81), the second
handler starts immediately.  Each handler is therefore a fixed sequence
of steps, atomic between `await` suspension points, and the possible
executions of two handlers are exactly the order-preserving merges of
their two step sequences.  `execStart`/`execEnd` bracket the
`await runTest({...context, expect})` call — the interval in which the
submitted code is executing against the shared default page.
-/

/-- The await-separated phases of one `onMessage` execution
(`src/cli.ts` 43-106). -/
inductive HStep
  | parseMsg
  | launchB
  | newPageB
  | writeScratch
  | importMod
  | execStart
  | execEnd
  | sendRes
  | unlinkScratch
  deriving DecidableEq, Repr

/-- The step sequence of one happy-path `onMessage` execution.  On the
first request of a connection (`sessionReady = false`) the handler also
launches the browser and creates the default page; on later requests
both `if (!context...)` guards skip those awaits. -/
def handlerSteps (sessionReady : Bool) : List HStep :=
  .parseMsg ::
    ((if sessionReady then [] else [.launchB, .newPageB]) ++
      [.writeScratch, .importMod, .execStart, .execEnd, .sendRes,
        .unlinkScratch])

/-- The check `isMerge t xs ys` holds when trace `t` is an order-preserving merge
of the step sequence `xs` of the first handler (tagged `false`) and
`ys` of the second handler (tagged `true`).  Because the source
serializes nothing, every such merge is a schedulable execution. -/
def isMerge : List (Bool × HStep) → List HStep → List HStep → Bool
  | [], [], [] => true
  | [], _ :: _, _ => false
  | [], [], _ :: _ => false
  | (false, x) :: t, x' :: xs, ys => x = x' && isMerge t xs ys
  | (false, _) :: _, [], _ => false
  | (true, y) :: t, xs, y' :: ys => y = y' && isMerge t xs ys
  | (true, _) :: _, _, [] => false

/-- The check `containsSubseq t pat`: the steps of `pat` occur in `t` in order
(not necessarily contiguously). -/
def containsSubseq : List (Bool × HStep) → List (Bool × HStep) → Bool
  | _, [] => true
  | [], _ :: _ => false
  | x :: xs, y :: ys =>
    if x = y then containsSubseq xs ys else containsSubseq xs (y :: ys)

/-- The two executions interleave against the shared page: one handler
enters its `runTest` await and, before it completes, the other handler
enters its own `runTest` await. -/
def Overlap (t : List (Bool × HStep)) : Prop :=
  containsSubseq t [(false, HStep.execStart), (true, HStep.execStart),
      (false, HStep.execEnd)] = true ∨
    containsSubseq t [(true, HStep.execStart), (false, HStep.execStart),
      (true, HStep.execEnd)] = true

/-- A schedulable interleaving in which the second request's handler
runs from its own start up to `runTest` while the first handler is
suspended inside its `runTest` await. -/
def overlapTrace : List (Bool × HStep) :=
  [(false, .parseMsg), (false, .launchB), (false, .newPageB),
    (false, .writeScratch), (false, .importMod), (false, .execStart),
    (true, .parseMsg), (true, .writeScratch), (true, .importMod),
    (true, .execStart),
    (false, .execEnd), (false, .sendRes), (false, .unlinkScratch),
    (true, .execEnd), (true, .sendRes), (true, .unlinkScratch)]

/-!
## The browser-launch race on a cold connection

The `if (!context.browser)` guard at `src/cli.ts` 61 and the assignment
`context.browser = await chromium.launch({...})` at line 62 are not
atomic: the guard read and the `chromium.launch` call happen in one
synchronous segment, but the assignment runs only when the launch
promise resolves.  While the first handler is suspended in that await,
`context.browser` is still `null`, so a second frame's handler — which
starts immediately, since nothing awaits or queues handler promises —
passes the same guard and launches a second browser.  The state machine
below executes the browser block of two handlers under an arbitrary
schedule, recording every browser handle a completed launch produces
and the final value of `context.browser`.
-/

/-- Position of one `onMessage` handler inside the browser block
(`src/cli.ts` 61-65): about to evaluate the `if (!context.browser)`
guard; suspended inside `await chromium.launch` after passing the
guard; or past the block (guard failed, or the assignment ran). -/
inductive LaunchPhase
  | start
  | launching
  | done
  deriving DecidableEq, Repr

/-- Shared per-connection state while two handlers (A and B) run the
browser block: the session's `browser` field, the handles produced by
completed `chromium.launch` calls in completion order, and each
handler's position. -/
structure RaceState where
  browser : Option Nat
  launched : List Nat
  phaseA : LaunchPhase
  phaseB : LaunchPhase
  deriving DecidableEq, Repr

/-- Both handlers at the guard on a cold connection: the state right
after `onOpen` stored `{browser: null, ...}` and two frames arrived. -/
def raceInit : RaceState :=
  { browser := none, launched := [], phaseA := .start, phaseB := .start }

/-- One scheduler step: run the next atomic segment of handler A
(`who = false`, whose launch yields handle `hA`) or handler B
(`who = true`, handle `hB`).  At `start` the handler reads
`context.browser`: if `null` it calls `chromium.launch` and suspends,
otherwise it skips the block.  At `launching` the await resolves: the
new handle is recorded and `context.browser = ...` assigns it,
overwriting whatever the field held.  A finished handler does
nothing. -/
def raceStep (hA hB : Nat) (st : RaceState) (who : Bool) : RaceState :=
  if who = false then
    match st.phaseA with
    | .start =>
      match st.browser with
      | none => { st with phaseA := .launching }
      | some _ => { st with phaseA := .done }
    | .launching =>
      { st with browser := some hA, launched := st.launched ++ [hA], phaseA := .done }
    | .done => st
  else
    match st.phaseB with
    | .start =>
      match st.browser with
      | none => { st with phaseB := .launching }
      | some _ => { st with phaseB := .done }
    | .launching =>
      { st with browser := some hB, launched := st.launched ++ [hB], phaseB := .done }
    | .done => st

/-- Execute a schedule — the order in which the event loop runs the two
handlers' segments — from the cold initial state. -/
def runRace (hA hB : Nat) (sched : List Bool) : RaceState :=
  sched.foldl (raceStep hA hB) raceInit

/-- The schedule in which frame B's handler runs its guard while frame
A's handler is suspended inside `await chromium.launch`. -/
def doubleLaunchSched : List Bool := [false, true, false, true]

/-!
## Concrete fixtures used by witnesses and counterexamples
-/

/-- A well-formed request: `{id:"t1", title:"T1", code:"...", func: none}`. -/
def reqT1 : TestRequest :=
  { id := "t1", title := "T1"
    code := "export default async ({page, expect}) => {}", func := none }

/-- Oracle for a fully successful execution of `reqT1`. -/
def envOk : ExecEnv :=
  { parse := fun _ => some reqT1, launchResult := some 1,
    newPageResult := some 2, fileName := "scratch",
    importResult := .loaded (some (.callable (.ok ()))) }

/-- Oracle in which `JSON.parse` fails on every payload. -/
def envParseFail : ExecEnv :=
  { envOk with parse := fun _ => none }

/-- Oracle in which `chromium.launch` throws. -/
def envLaunchFail : ExecEnv :=
  { envOk with launchResult := none }

/-- Oracle in which `await import(tempFilePath)` itself throws (the
submitted code does not compile as a module). -/
def envImportThrows : ExecEnv :=
  { envOk with importResult := .throws "SyntaxError: unexpected token" }

/-- Oracle in which the module loads but the requested export is absent
(`m[data.func || "default"]` is `undefined`). -/
def envMissingExport : ExecEnv :=
  { envOk with importResult := .loaded none }

/-- Oracle in which the resolved export is present but not invocable. -/
def envNonCallable : ExecEnv :=
  { envOk with importResult := .loaded (some .nonCallable) }

/-- A session whose browser and default page already exist. -/
def sReady : Session :=
  { browser := some 1, page := some 2, pages := [("default", 2)] }

/-- Two registrations with distinct ids, both of which will pass. -/
def testsAB : List TestEntry :=
  [{ id := "a", result := .ok () }, { id := "b", result := .ok () }]

/-- A client whose ref records timer 0, with that timer armed. -/
def connC0 : ClientConn := { reconnectTimeout := some 0 }

/-- The timer world matching `connC0`. -/
def worldW0 : TimerWorld :=
  { armed := [(0, 2000, .connectAction)], nextId := 1 }

/-- Boolean check that a sent-message list contains an
`Error`-status `test_result`. -/
def sentErrorResult (ms : List ServerMsg) : Bool :=
  ms.any fun m =>
    match m with
    | .testResult .error _ _ => true
    | _ => false

/-- Boolean check that every `test_result` in a sent-message list
has status `passed` or `failed`. -/
def sentStatusesOk (ms : List ServerMsg) : Bool :=
  ms.all fun m =>
    match m with
    | .testResult st _ _ => st = TestStatus.passed || st = TestStatus.failed
    | .greeting _ => true

/-- The single message `onOpen` sends (`src/cli.ts` 36). -/
def onOpenSent : List ServerMsg := [.greeting "Hello from server!"]

/-- A payload is malformed when `onMessage`'s parsing phase cannot turn
it into a request object: `JSON.parse` fails on a string or
`ArrayBuffer` payload, or `event.data` has an unrecognized type.  (A
`Blob` payload is excluded: it is read as text and never parsed.) -/
def MalformedRaw (env : ExecEnv) : RawData → Prop
  | .str s => env.parse s = none
  | .arrayBuffer s => env.parse s = none
  | .blob _ => False
  | .other => True

/-!
## Helper lemmas about the server handler
-/

theorem withPage_proj (env : ExecEnv) (s : Session) (fs : List String)
    (d : JSValue) (l c : Bool) :
    (onMessageWithPage env s fs d l c).session = s ∧
      (onMessageWithPage env s fs d l c).launchedNew = l ∧
      (onMessageWithPage env s fs d l c).createdPage = c := by
  unfold onMessageWithPage
  cases hd : d.codeField <;> cases hi : env.importResult <;> simp [hd, hi]

theorem withBrowser_proj (env : ExecEnv) (s : Session) (fs : List String)
    (d : JSValue) (l : Bool) :
    (onMessageWithBrowser env s fs d l).session.browser = s.browser ∧
      (onMessageWithBrowser env s fs d l).launchedNew = l := by
  unfold onMessageWithBrowser
  cases hp : s.page with
  | none =>
    cases hn : env.newPageResult with
    | none => simp
    | some p =>
      have h := withPage_proj env { s with page := some p, pages := s.pages ++ [("default", p)] } fs d l true
      simp [h.1, h.2.1]
  | some p =>
    have h := withPage_proj env s fs d l false
    simp [h.1, h.2.1]

theorem withBrowser_page_pres (env : ExecEnv) (s : Session)
    (fs : List String) (d : JSValue) (l : Bool) (p : Nat)
    (hp : s.page = some p) :
    (onMessageWithBrowser env s fs d l).session.page = some p ∧
      (onMessageWithBrowser env s fs d l).createdPage = false := by
  unfold onMessageWithBrowser
  rw [hp]
  have h := withPage_proj env s fs d l false
  simp [h.1, h.2.2, hp]

theorem om_browser_pres (env : ExecEnv) (s : Session) (fs : List String)
    (raw : RawData) (b : Nat) (hb : s.browser = some b) :
    (onMessage env s fs raw).session.browser = some b ∧
      (onMessage env s fs raw).launchedNew = false := by
  unfold onMessage
  cases hp : parseEventData env.parse raw with
  | error e => simp [hb]
  | ok d =>
    rw [hb]
    have h := withBrowser_proj env s fs d false
    simp [h.1, h.2, hb]

theorem om_page_pres (env : ExecEnv) (s : Session) (fs : List String)
    (raw : RawData) (p : Nat) (hp : s.page = some p) :
    (onMessage env s fs raw).session.page = some p ∧
      (onMessage env s fs raw).createdPage = false := by
  unfold onMessage
  cases hpe : parseEventData env.parse raw with
  | error e => simp [hp]
  | ok d =>
    cases hb : s.browser with
    | none =>
      cases hl : env.launchResult with
      | none => simp [hp]
      | some b => exact withBrowser_page_pres env _ fs d true p hp
    | some b => exact withBrowser_page_pres env s fs d false p hp

theorem om_reaches_page (env : ExecEnv) (s : Session) (fs : List String)
    (raw : RawData) (data : JSValue)
    (hp : parseEventData env.parse raw = .ok data)
    (hb : s.browser.isSome = true ∨ env.launchResult.isSome = true)
    (hpg : s.page.isSome = true ∨ env.newPageResult.isSome = true) :
    ∃ s' l c, onMessage env s fs raw = onMessageWithPage env s' fs data l c := by
  unfold onMessage
  rw [hp]
  cases hsb : s.browser with
  | none =>
    cases hl : env.launchResult with
    | none =>
      rw [hsb] at hb
      rw [hl] at hb
      simp at hb
    | some b =>
      unfold onMessageWithBrowser
      cases hsp : s.page with
      | none =>
        cases hn : env.newPageResult with
        | none =>
          rw [hsp] at hpg
          rw [hn] at hpg
          simp at hpg
        | some p => exact ⟨_, _, _, rfl⟩
      | some p => exact ⟨_, _, _, rfl⟩
  | some b =>
    unfold onMessageWithBrowser
    cases hsp : s.page with
    | none =>
      cases hn : env.newPageResult with
      | none =>
        rw [hsp] at hpg
        rw [hn] at hpg
        simp at hpg
      | some p => exact ⟨_, _, _, rfl⟩
    | some p => exact ⟨_, _, _, rfl⟩

theorem withPage_files (env : ExecEnv) (s : Session) (fs : List String)
    (d : JSValue) (l c : Bool) (hc : d.codeField.isSome = true)
    (hnd : fs.Nodup) :
    (∀ ev, env.importResult = .loaded ev →
        env.fileName ∉ (onMessageWithPage env s fs d l c).files) ∧
      (∀ m, env.importResult = .throws m →
        env.fileName ∈ (onMessageWithPage env s fs d l c).files) := by
  cases hd : d.codeField with
  | none => rw [hd] at hc; simp at hc
  | some code =>
    unfold onMessageWithPage
    rw [hd]
    have h1 : (if env.fileName ∈ fs then fs else fs ++ [env.fileName]).Nodup := by
      by_cases hm : env.fileName ∈ fs
      · simp [hm, hnd]
      · simp [hm, List.nodup_append, hnd]
    have h2 : env.fileName ∈ (if env.fileName ∈ fs then fs else fs ++ [env.fileName]) := by
      by_cases hm : env.fileName ∈ fs <;> simp [hm]
    cases hi : env.importResult with
    | throws m =>
      refine ⟨fun ev hev => by simp [hi] at hev, fun m' _ => ?_⟩
      simpa using h2
    | loaded ev =>
      refine ⟨fun ev' _ => ?_, fun m' hm' => by simp [hi] at hm'⟩
      simpa using h1.not_mem_erase

/-!
## Claim theorems
-/

/-- C1 (counterexample): the claim "for every malformed inbound message,
`onMessage` reports a generic Error-status `TestResult` and no error
escapes the message-handling boundary uncaught" is false at a concrete
malformed payload: `JSON.parse` throws, the exception escapes the
handler, and nothing is sent. -/
theorem malformed_claim_fails :
    ¬ ((onMessage envParseFail Session.init [] (.str "not json")).threw = none ∧
      sentErrorResult (onMessage envParseFail Session.init [] (.str "not json")).sent = true) := by
  decide

/-- C1 (amended): for every malformed inbound payload — a string or
`ArrayBuffer` whose text `JSON.parse` rejects, or an unrecognized
`event.data` type — the exception escapes `onMessage` uncaught and no
`TestResult` of any status is sent; nothing at the message-handling
boundary catches it. -/
theorem malformed_payload_escapes (env : ExecEnv) (s : Session)
    (fs : List String) (raw : RawData) (h : MalformedRaw env raw) :
    (onMessage env s fs raw).threw.isSome = true ∧
      (onMessage env s fs raw).sent = [] := by
  cases raw with
  | str t =>
    have hp : env.parse t = none := h
    simp [onMessage, parseEventData, hp]
  | arrayBuffer t =>
    have hp : env.parse t = none := h
    simp [onMessage, parseEventData, hp]
  | blob t => exact absurd h (by simp [MalformedRaw])
  | other => simp [onMessage, parseEventData]

/-- C1 (witness): the amended theorem applied to a concrete malformed
string payload. -/
theorem malformed_payload_escapes_witness :
    MalformedRaw envParseFail (.str "not json") ∧
      ((onMessage envParseFail Session.init [] (.str "not json")).threw.isSome = true ∧
        (onMessage envParseFail Session.init [] (.str "not json")).sent = []) :=
  ⟨rfl, malformed_payload_escapes envParseFail Session.init [] (.str "not json") rfl⟩

/-- C2 (counterexample): the claim "the scratch file does not exist on
disk after the execution completes, regardless of outcome (passed,
failed, or load failure)" is false on a load failure: when the dynamic
`import` of the scratch file throws, the `finally` unlink never runs and
the file remains on disk. -/
theorem scratch_file_survives_load_failure :
    "scratch" ∈ (onMessage envImportThrows Session.init [] (.str "payload")).files := by
  decide

/-- C2 (amended): for every request that reaches execution (the payload
parsed into a request object, the browser and page were available, and
the scratch file was written), the scratch file is deleted whenever the
dynamic import succeeds — whether the invocation then passes or fails —
but when the import itself throws (load failure) the scratch file still
exists after the handler exits. -/
theorem scratch_file_deleted_unless_import_throws (env : ExecEnv)
    (s : Session) (fs : List String) (raw : RawData) (req : TestRequest)
    (hp : parseEventData env.parse raw = .ok (.obj req))
    (hb : s.browser.isSome = true ∨ env.launchResult.isSome = true)
    (hpg : s.page.isSome = true ∨ env.newPageResult.isSome = true)
    (hnd : fs.Nodup) :
    (∀ ev, env.importResult = .loaded ev →
        env.fileName ∉ (onMessage env s fs raw).files) ∧
      (∀ m, env.importResult = .throws m →
        env.fileName ∈ (onMessage env s fs raw).files) := by
  obtain ⟨s', l, c, heq⟩ := om_reaches_page env s fs raw (.obj req) hp hb hpg
  rw [heq]
  exact withPage_files env s' fs (.obj req) l c (by simp [JSValue.codeField]) hnd

/-- C2 (witness): the amended theorem applied to a concrete successful
execution, showing the scratch file gone afterwards. -/
theorem scratch_file_deleted_witness :
    parseEventData envOk.parse (.str "payload") = .ok (.obj reqT1) ∧
      "scratch" ∉ (onMessage envOk Session.init [] (.str "payload")).files :=
  ⟨rfl,
    (scratch_file_deleted_unless_import_throws envOk Session.init []
        (.str "payload") reqT1 rfl (Or.inr rfl) (Or.inr rfl) List.nodup_nil).1
      (some (.callable (.ok ()))) rfl⟩

/-- C6: a request whose entry point is absent from the loaded module or
not invocable gets a Failed result with a descriptive message, and no
exception escapes the handler: `m[data.func || "default"]` resolves to
`undefined` (or a non-callable value), and invoking it throws a
`TypeError` inside the `try`, which the `catch` reports. -/
theorem missing_entrypoint_reported (env : ExecEnv) (s : Session)
    (fs : List String) (raw : RawData) (req : TestRequest)
    (hp : parseEventData env.parse raw = .ok (.obj req))
    (hb : s.browser.isSome = true ∨ env.launchResult.isSome = true)
    (hpg : s.page.isSome = true ∨ env.newPageResult.isSome = true)
    (he : env.importResult = .loaded none ∨
      env.importResult = .loaded (some .nonCallable)) :
    (onMessage env s fs raw).threw = none ∧
      (onMessage env s fs raw).sent =
        [.testResult .failed req.id (some "runTest is not a function")] := by
  obtain ⟨s', l, c, heq⟩ := om_reaches_page env s fs raw (.obj req) hp hb hpg
  rw [heq]
  unfold onMessageWithPage
  cases he with
  | inl h => simp [JSValue.codeField, h, runPhase, JSValue.idField]
  | inr h => simp [JSValue.codeField, h, runPhase, JSValue.idField]

/-- C6 (witness): a concrete request naming an absent export yields the
failed result with its diagnostic message and no uncaught exception. -/
theorem missing_entrypoint_reported_witness :
    parseEventData envMissingExport.parse (.str "payload") = .ok (.obj reqT1) ∧
      ((onMessage envMissingExport Session.init [] (.str "payload")).threw = none ∧
        (onMessage envMissingExport Session.init [] (.str "payload")).sent =
          [.testResult .failed "t1" (some "runTest is not a function")]) :=
  ⟨rfl,
    missing_entrypoint_reported envMissingExport Session.init []
      (.str "payload") reqT1 rfl (Or.inr rfl) (Or.inr rfl) (Or.inl rfl)⟩

/-- C7 (counterexample): the claim "the browser handle is created at
most once per connection" is false of the program: under the schedule
`doubleLaunchSched` — schedulable because nothing queues or awaits the
handler promises — both cold handlers pass `if (!context.browser)`
before either assignment runs, and two browser handles are created on
one connection. -/
theorem browser_launched_twice :
    ¬ (runRace 1 2 doubleLaunchSched).launched.length ≤ 1 := by
  decide

/-- C7 (amended): browser and page creation are lazy and guarded, and
any request that finds the browser and default page already created
reuses exactly those handles and assigns neither; but the guard and the
assignment are separated by the launch await, so two requests
interleaved on a cold connection can each pass the `!context.browser`
guard and launch: two browser handles are created, the second
assignment overwriting the first handle in the session.  At-most-once
creation holds only when a request is handled after the previous one
completed, not for concurrently handled requests. -/
theorem browser_launch_not_atomic :
    (∀ (env : ExecEnv) (s : Session) (fs : List String) (raw : RawData)
        (b p : Nat), s.browser = some b → s.page = some p →
        (onMessage env s fs raw).session.browser = some b ∧
          (onMessage env s fs raw).session.page = some p ∧
          (onMessage env s fs raw).launchedNew = false ∧
          (onMessage env s fs raw).createdPage = false) ∧
      ∀ hA hB : Nat,
        (runRace hA hB doubleLaunchSched).launched = [hA, hB] ∧
          (runRace hA hB doubleLaunchSched).browser = some hB := by
  constructor
  · intro env s fs raw b p hb hp
    obtain ⟨hb1, hb2⟩ := om_browser_pres env s fs raw b hb
    obtain ⟨hp1, hp2⟩ := om_page_pres env s fs raw p hp
    exact ⟨hb1, hp1, hb2, hp2⟩
  · intro hA hB
    exact ⟨rfl, rfl⟩

/-- C7 (witness): the reuse half on a concrete warm session and the
double launch with concrete handles 1 and 2. -/
theorem browser_launch_not_atomic_witness :
    ((onMessage envOk sReady [] (.str "p")).session.browser = some 1 ∧
        (onMessage envOk sReady [] (.str "p")).session.page = some 2 ∧
        (onMessage envOk sReady [] (.str "p")).launchedNew = false ∧
        (onMessage envOk sReady [] (.str "p")).createdPage = false) ∧
      (runRace 1 2 doubleLaunchSched).launched = [1, 2] ∧
        (runRace 1 2 doubleLaunchSched).browser = some 2 :=
  ⟨browser_launch_not_atomic.1 envOk sReady [] (.str "p") 1 2 rfl rfl,
    browser_launch_not_atomic.2 1 2⟩

/-- C8 (counterexample): the claim "if browser start fails during a
request, that in-flight request is failed with an Error-status result"
is false at a concrete request: when `chromium.launch` throws, the
handler sends nothing at all — no Error-status `test_result` goes out. -/
theorem launch_failure_sends_no_error_result :
    ¬ sentErrorResult
        (onMessage envLaunchFail Session.init [] (.str "payload")).sent = true := by
  decide

/-- C8 (amended): if `chromium.launch` throws during a request, the
exception escapes `onMessage` uncaught and the in-flight request gets no
result of any status; the `context.browser` assignment never ran, so the
session record is unchanged (browser still unset) and a subsequent
request on the same connection does retry the launch. -/
theorem launch_failure_resets (env : ExecEnv) (s : Session)
    (fs : List String) (t : String) (req : TestRequest)
    (hb : s.browser = none) (hl : env.launchResult = none)
    (hp : env.parse t = some req) :
    (onMessage env s fs (.str t)).threw.isSome = true ∧
      (onMessage env s fs (.str t)).sent = [] ∧
      (onMessage env s fs (.str t)).session = s ∧
      ∀ (env' : ExecEnv) (fs' : List String) (t' : String)
        (req' : TestRequest) (b : Nat), env'.parse t' = some req' →
        env'.launchResult = some b →
        (onMessage env' (onMessage env s fs (.str t)).session fs'
          (.str t')).launchedNew = true := by
  have hms : onMessage env s fs (.str t) =
      { threw := some "browser launch failed", session := s, files := fs,
        sent := [], launchedNew := false, createdPage := false } := by
    unfold onMessage
    simp [parseEventData, hp, hb, hl]
  refine ⟨by simp [hms], by simp [hms], by simp [hms], ?_⟩
  intro env' fs' t' req' b hp' hl'
  rw [hms]
  unfold onMessage
  simp only [parseEventData, hp', hb, hl']
  exact (withBrowser_proj env' { s with browser := some b } fs' (.obj req') true).2

/-- C8 (witness): the amended theorem at a concrete failed launch,
including the successful retry on the next request. -/
theorem launch_failure_resets_witness :
    (onMessage envLaunchFail Session.init [] (.str "payload")).sent = [] ∧
      (onMessage envOk
        (onMessage envLaunchFail Session.init [] (.str "payload")).session []
        (.str "payload")).launchedNew = true :=
  ⟨(launch_failure_resets envLaunchFail Session.init [] "payload" reqT1
      rfl rfl rfl).2.1,
    (launch_failure_resets envLaunchFail Session.init [] "payload" reqT1
      rfl rfl rfl).2.2.2 envOk [] "payload" reqT1 1 rfl rfl⟩

theorem sentStatusesOk_runPhase (ev : Option ExportVal) (tid : String) :
    sentStatusesOk (runPhase ev tid) = true := by
  cases ev with
  | none => rfl
  | some v =>
    cases v with
    | nonCallable => rfl
    | callable r => cases r <;> rfl

theorem sentStatusesOk_withPage (env : ExecEnv) (s : Session)
    (fs : List String) (d : JSValue) (l c : Bool) :
    sentStatusesOk (onMessageWithPage env s fs d l c).sent = true := by
  unfold onMessageWithPage
  cases hd : d.codeField with
  | none => rfl
  | some code =>
    cases hi : env.importResult with
    | throws m => simp [sentStatusesOk]
    | loaded ev => simpa using sentStatusesOk_runPhase ev d.idField

theorem sentStatusesOk_withBrowser (env : ExecEnv) (s : Session)
    (fs : List String) (d : JSValue) (l : Bool) :
    sentStatusesOk (onMessageWithBrowser env s fs d l).sent = true := by
  unfold onMessageWithBrowser
  cases hp : s.page with
  | none =>
    cases hn : env.newPageResult with
    | none => rfl
    | some p => exact sentStatusesOk_withPage env _ fs d l true
  | some p => exact sentStatusesOk_withPage env s fs d l false

/-- C10: every `test_result` the server ever sends has status `passed`
or `failed` — the two send sites at `src/cli.ts` 83-89 and 95-102 use
`TestStatus.Passed` and `TestStatus.Failed` and nothing else sends a
`test_result` — so a result with status `error` is never emitted, on any
input or failure mode (the greeting from `onOpen` is not a
`test_result`). -/
theorem server_never_sends_error_status :
    (∀ (env : ExecEnv) (s : Session) (fs : List String) (raw : RawData),
        sentStatusesOk (onMessage env s fs raw).sent = true) ∧
      sentStatusesOk onOpenSent = true := by
  refine ⟨fun env s fs raw => ?_, rfl⟩
  unfold onMessage
  cases hpe : parseEventData env.parse raw with
  | error e => rfl
  | ok d =>
    cases hb : s.browser with
    | none =>
      cases hl : env.launchResult with
      | none => rfl
      | some b => exact sentStatusesOk_withBrowser env _ fs d true
    | some b => exact sentStatusesOk_withBrowser env s fs d false

/-- C3 (counterexample): the claim "two requests on the same connection
are serialized and never interleave against the shared default page" is
false: the handler takes no lock and keeps no queue, so the merge
`overlapTrace` — in which the second handler reaches its `runTest` await
while the first is still suspended inside its own — is a schedulable
execution, and it overlaps on the page. -/
theorem serialization_claim_fails :
    ¬ ∀ t, isMerge t (handlerSteps false) (handlerSteps true) = true →
      ¬ Overlap t :=
  fun h => h overlapTrace (by decide) (Or.inl (by decide))

/-- C3 (amended): requests on the same connection are NOT serialized:
there exists a schedulable interleaving of two `onMessage` executions
(an order-preserving merge of their await-separated steps) in which the
second request's submitted code runs against the shared default page
while the first request's code is still executing. -/
theorem concurrent_requests_can_interleave :
    ∃ t, isMerge t (handlerSteps false) (handlerSteps true) = true ∧
      Overlap t :=
  ⟨overlapTrace, by decide, Or.inl (by decide)⟩

/-- C4 (counterexample): the claim "the deferred outcome is rejected
with the error message if the status is Failed or Error" is false for
status `error`: the listener's `if (data.status === TestStatus.Failed)`
sends every non-Failed status — `error` included — into the `else`
branch, which resolves the promise successfully. -/
theorem error_status_resolves_not_rejects :
    ¬ ∃ m, (handleMessage "t1"
        (.parsed "test_result" "t1" .error (some "boom"))).outcome =
      Outcome.rejected m := by
  intro h
  obtain ⟨m, hm⟩ := h
  have hr : (handleMessage "t1"
      (.parsed "test_result" "t1" .error (some "boom"))).outcome =
        Outcome.resolved := by decide
  rw [hr] at hm
  exact Outcome.noConfusion hm

/-- C4 (amended): on a message matching
`{type: "test_result", testId == this test's id}` the listener removes
itself exactly then, rejects the deferred outcome with the error message
when the status is `failed`, and resolves it successfully for every
other status — `passed` and `error` alike; on a non-matching message it
neither settles the outcome nor removes itself. -/
theorem listener_match_behavior (testId type_ tid : String)
    (st : TestStatus) (err : Option String) :
    (type_ = "test_result" ∧ tid = testId →
        (handleMessage testId (.parsed type_ tid st err)).removed = true ∧
          (st = .failed →
            (handleMessage testId (.parsed type_ tid st err)).outcome =
              .rejected (err.getD "")) ∧
          (st ≠ .failed →
            (handleMessage testId (.parsed type_ tid st err)).outcome =
              .resolved)) ∧
      (¬ (type_ = "test_result" ∧ tid = testId) →
        (handleMessage testId (.parsed type_ tid st err)).removed = false ∧
          (handleMessage testId (.parsed type_ tid st err)).outcome =
            .pending) := by
  have he : handleMessage testId (.parsed type_ tid st err) =
      if type_ = "test_result" ∧ tid = testId then
        if st = TestStatus.failed then
          { outcome := .rejected (err.getD ""), statusSet := some st,
            errorSet := some (err.getD ""), removed := true }
        else
          { outcome := .resolved, statusSet := some st,
            errorSet := none, removed := true }
      else
        { outcome := .pending, statusSet := none, errorSet := none,
          removed := false } := rfl
  constructor
  · intro h
    rw [he, if_pos h]
    by_cases hst : st = .failed
    · subst hst
      simp
    · rw [if_neg hst]
      simp [hst]
  · intro h
    rw [he, if_neg h]
    exact ⟨rfl, rfl⟩

/-- C4 (witness): the amended theorem at concrete matching messages —
a passed result resolves with the listener removed. -/
theorem listener_match_behavior_witness :
    (handleMessage "t1" (.parsed "test_result" "t1" .passed none)).removed = true ∧
      (handleMessage "t1" (.parsed "test_result" "t1" .passed none)).outcome =
        Outcome.resolved :=
  ⟨((listener_match_behavior "t1" "test_result" "t1" .passed none).1
      ⟨rfl, rfl⟩).1,
    ((listener_match_behavior "t1" "test_result" "t1" .passed none).1
      ⟨rfl, rfl⟩).2.2 (by decide)⟩

theorem scheduleReconnect_spec (c : ClientConn) (w : TimerWorld)
    (h : TimerInv c w) :
    (scheduleReconnect c w).2.armed = [(w.nextId, 2000, .connectAction)] ∧
      (scheduleReconnect c w).1.reconnectTimeout = some w.nextId ∧
      (∀ t, c.reconnectTimeout = some t → t ≠ w.nextId) ∧
      TimerInv (scheduleReconnect c w).1 (scheduleReconnect c w).2 := by
  obtain ⟨h1, h2⟩ := h
  cases hc : c.reconnectTimeout with
  | none =>
    rw [hc] at h1
    have harmed : w.armed = [] := by
      simpa using h1
    refine ⟨?_, ?_, by simp [hc], ?_, ?_⟩
    · simp [scheduleReconnect, setTimeout, hc, harmed]
    · simp [scheduleReconnect, setTimeout, hc, harmed]
    · simp [scheduleReconnect, setTimeout, hc, harmed, TimerInv]
    · simp [scheduleReconnect, setTimeout, hc, harmed, TimerInv]
  | some t =>
    rw [hc] at h1
    obtain ⟨x, xs, harmed⟩ : ∃ x xs, w.armed = x :: xs := by
      cases hw : w.armed with
      | nil => rw [hw] at h1; simp at h1
      | cons x xs => exact ⟨x, xs, rfl⟩
    rw [harmed] at h1
    simp only [List.map_cons, Option.toList_some] at h1
    have hx : x.1 = t := (List.cons_eq_cons.mp h1).1
    have hxs : xs = [] := by
      have := (List.cons_eq_cons.mp h1).2
      simpa using this
    have htlt : t < w.nextId := by
      apply h2
      rw [harmed, hxs, List.map_cons]
      simp [hx]
    have hcleared : (clearTimeout w t).armed = [] := by
      simp [clearTimeout, harmed, hxs, List.filter, hx]
    refine ⟨?_, ?_, ?_, ?_, ?_⟩
    · simp [scheduleReconnect, setTimeout, clearTimeout, hc, harmed, hxs, hx]
    · simp [scheduleReconnect, setTimeout, clearTimeout, hc, harmed, hxs, hx]
    · intro t' ht'
      cases ht'
      omega
    · simp [scheduleReconnect, setTimeout, clearTimeout, hc, harmed, hxs, hx,
        TimerInv]
    · simp [scheduleReconnect, setTimeout, clearTimeout, hc, harmed, hxs, hx,
        TimerInv]

theorem iterateSchedule_inv (n : Nat) :
    TimerInv (iterateSchedule n).1 (iterateSchedule n).2 := by
  induction n with
  | zero => exact ⟨rfl, by simp [iterateSchedule, timerInit]⟩
  | succ m ih =>
    exact (scheduleReconnect_spec (iterateSchedule m).1
      (iterateSchedule m).2 ih).2.2.2

/-- C9: at most one reconnect timer is ever pending — any number of
successive `scheduleReconnect` calls leaves at most one armed timer —
and each call first cancels the pending timer (the previously recorded
id is distinct from, and replaced by, the new one) and then arms exactly
one fresh one-shot 2000 ms timer whose callback is `connect`. -/
theorem reconnect_single_timer :
    (∀ n, (iterateSchedule n).2.armed.length ≤ 1) ∧
      ∀ (c : ClientConn) (w : TimerWorld), TimerInv c w →
        (scheduleReconnect c w).2.armed =
            [(w.nextId, 2000, .connectAction)] ∧
          (scheduleReconnect c w).1.reconnectTimeout = some w.nextId ∧
          ∀ t, c.reconnectTimeout = some t → t ≠ w.nextId := by
  constructor
  · intro n
    cases n with
    | zero => simp [iterateSchedule, timerInit]
    | succ m =>
      have h := scheduleReconnect_spec (iterateSchedule m).1
        (iterateSchedule m).2 (iterateSchedule_inv m)
      simp only [iterateSchedule]
      rw [h.1]
      simp
  · intro c w h
    have hs := scheduleReconnect_spec c w h
    exact ⟨hs.1, hs.2.1, hs.2.2.1⟩

/-- C9 (witness): the single-call part of the theorem at a concrete
client with timer 0 pending: the stale timer is cancelled and exactly
the fresh 2000 ms `connect` timer remains armed. -/
theorem reconnect_single_timer_witness :
    (scheduleReconnect connC0 worldW0).2.armed =
        [(1, 2000, .connectAction)] ∧
      (scheduleReconnect connC0 worldW0).1.reconnectTimeout = some 1 :=
  ⟨(reconnect_single_timer.2 connC0 worldW0 ⟨rfl, by decide⟩).1,
    (reconnect_single_timer.2 connC0 worldW0 ⟨rfl, by decide⟩).2.1⟩

theorem runSeq_ordered :
    ∀ (tests : List TestEntry), (tests.map TestEntry.id).Nodup →
      ∀ (k : Nat) (hk : k + 1 < tests.length),
        RAEvent.sendReq (tests.get ⟨k + 1, hk⟩).id ∈ runSeq tests →
        ∃ p s, runSeq tests = p ++ s ∧
          RAEvent.recvResult (tests.get ⟨k, Nat.lt_of_succ_lt hk⟩).id ∈ p ∧
          RAEvent.sendReq (tests.get ⟨k + 1, hk⟩).id ∉ p := by
  intro tests
  induction tests with
  | nil =>
    intro _ k hk
    simp at hk
  | cons t ts ih =>
    intro hnd k hk hmem
    have hnotin : t.id ∉ ts.map TestEntry.id := by
      rw [List.map_cons] at hnd
      exact (List.nodup_cons.mp hnd).1
    have hnd' : (ts.map TestEntry.id).Nodup := by
      rw [List.map_cons] at hnd
      exact (List.nodup_cons.mp hnd).2
    cases k with
    | zero =>
      have hk0 : 0 < ts.length := by simpa using hk
      have hget : (t :: ts).get ⟨0 + 1, hk⟩ = ts.get ⟨0, hk0⟩ := rfl
      have hmemid : (ts.get ⟨0, hk0⟩).id ∈ ts.map TestEntry.id :=
        List.mem_map_of_mem TestEntry.id (ts.get_mem _ _)
      have hne : (ts.get ⟨0, hk0⟩).id ≠ t.id := by
        intro hEq
        rw [hEq] at hmemid
        exact hnotin hmemid
      cases hres : t.result with
      | error e =>
        rw [hget] at hmem
        unfold runSeq at hmem
        rw [hres] at hmem
        simp at hmem
        exact absurd hmem (by simpa using hne)
      | ok u =>
        refine ⟨[.sendReq t.id, .recvResult t.id], runSeq ts, ?_, ?_, ?_⟩
        · simp only [runSeq]
          rw [hres]
          rfl
        · simp [List.get]
        · rw [hget]
          simp
          simpa using hne
    | succ q =>
      have hq : q + 1 < ts.length := by simpa using hk
      have hget2 : (t :: ts).get ⟨q + 1 + 1, hk⟩ = ts.get ⟨q + 1, hq⟩ := rfl
      have hget1 : (t :: ts).get ⟨q + 1, Nat.lt_of_succ_lt hk⟩ =
          ts.get ⟨q, Nat.lt_of_succ_lt hq⟩ := rfl
      have hmemid2 : (ts.get ⟨q + 1, hq⟩).id ∈ ts.map TestEntry.id :=
        List.mem_map_of_mem TestEntry.id (ts.get_mem _ _)
      have hne2 : (ts.get ⟨q + 1, hq⟩).id ≠ t.id := by
        intro hEq
        rw [hEq] at hmemid2
        exact hnotin hmemid2
      cases hres : t.result with
      | error e =>
        rw [hget2] at hmem
        unfold runSeq at hmem
        rw [hres] at hmem
        simp at hmem
        exact absurd hmem (by simpa using hne2)
      | ok u =>
        rw [hget2] at hmem
        unfold runSeq at hmem
        rw [hres] at hmem
        have hne2g : ¬ts[q + 1].id = t.id := by simpa using hne2
        have hmem2 : RAEvent.sendReq (ts.get ⟨q + 1, hq⟩).id ∈ runSeq ts := by
          simpa [hne2g] using hmem
        obtain ⟨p2, s2, heq, hrecv, hsend⟩ := ih hnd' q hq hmem2
        refine ⟨.sendReq t.id :: .recvResult t.id :: p2, s2, ?_, ?_, ?_⟩
        · simp only [runSeq]
          rw [hres, heq]
          rfl
        · rw [hget1]
          simp
          exact Or.inr (by simpa using hrecv)
        · rw [hget2]
          simp only [List.mem_cons, not_or]
          refine ⟨?_, ?_, hsend⟩
          · simp
            simpa using hne2
          · simp

/-- C5: `runAll` is strictly sequential.  For any registry whose ids are
distinct (ids are fresh `nanoid()`s), whenever test k+1's request is
sent at all, the trace splits so that test k's awaited result was
received strictly before it — test k+1's request is never sent before
test k's outcome settles — and over zero tests `runAll` completes
immediately: it emits only the running-flag toggle on and back off. -/
theorem runAll_sequential :
    (∀ (tests : List TestEntry), (tests.map TestEntry.id).Nodup →
        ∀ (k : Nat) (hk : k + 1 < tests.length),
          RAEvent.sendReq (tests.get ⟨k + 1, hk⟩).id ∈ runAll tests →
          ∃ p s, runAll tests = p ++ s ∧
            RAEvent.recvResult (tests.get ⟨k, Nat.lt_of_succ_lt hk⟩).id ∈ p ∧
            RAEvent.sendReq (tests.get ⟨k + 1, hk⟩).id ∉ p) ∧
      runAll [] = [.setRunning true, .setRunning false] := by
  constructor
  · intro tests hnd k hk hmem
    have hmem' : RAEvent.sendReq (tests.get ⟨k + 1, hk⟩).id ∈
        runSeq tests := by
      simp only [runAll, List.mem_cons, List.mem_append] at hmem
      rcases hmem with h | h | h
      · exact absurd h (by simp)
      · exact h
      · exact absurd h (by simp)
    obtain ⟨p2, s2, heq, hrecv, hsend⟩ :=
      runSeq_ordered tests hnd k hk hmem'
    refine ⟨.setRunning true :: p2, s2 ++ [.setRunning false], ?_, ?_, ?_⟩
    · simp only [runAll, heq]
      simp
    · simp
      simpa using hrecv
    · simp only [List.mem_cons, not_or]
      exact ⟨by simp, hsend⟩
  · rfl

/-- C5 (witness): the ordering theorem on the concrete two-test registry
`testsAB`, plus the N = 0 trace. -/
theorem runAll_sequential_witness :
    (∃ p s, runAll testsAB = p ++ s ∧
        RAEvent.recvResult (testsAB.get ⟨0, by decide⟩).id ∈ p ∧
        RAEvent.sendReq (testsAB.get ⟨1, by decide⟩).id ∉ p) ∧
      runAll [] = [.setRunning true, .setRunning false] :=
  ⟨runAll_sequential.1 testsAB (by decide) 0 (by decide) (by decide),
    runAll_sequential.2⟩
